import Mathlib

/-!
Shallow embedding of the record store of `KineticToolkit`
(`src/KineticToolkit/resdb.py` and its near-duplicate `datadb.py`).

A record is a Python mapping from string keys to values; we embed a
record as an association list.  The filtering criteria (`**crit`) form a
Python dict whose values are either plain values or unary callables; we
embed that dispatch (`isinstance(v, abc.Callable)`) as the tagged type
`Crit`.  Query operations are polymorphic in the value type `V`;
`get_prop`, which does arithmetic on the values, is embedded at the
concrete value type `PyVal`.  Errors raised by the Python code are
embedded as `Except` results, with one constructor per distinct `raise`
site (the comments give the Python message).
-/

namespace KineticToolkit

/-- Lookup in a Python dict embedded as an association list: the value at
the first occurrence of the key, if any. -/
def dictGet {α : Type} : List (String × α) → String → Option α
  | [], _ => none
  | (k', v) :: t, k => if k' = k then some v else dictGet t k

/-- Assignment `d[k] = v` on a Python dict embedded as an association
list: replace the value at the first occurrence of the key in place,
or append the binding when the key is absent. -/
def dictSet {α : Type} : List (String × α) → String → α → List (String × α)
  | [], k, v => [(k, v)]
  | (k', v') :: t, k, v => if k' = k then (k, v) :: t else (k', v') :: dictSet t k v

/-- Removal of every binding of a key from an embedded dict (a Python
dict holds each key at most once, so this models `del d[k]` / absence of
the key). -/
def dictErase {α : Type} (d : List (String × α)) (k : String) : List (String × α) :=
  d.filter fun p => !(decide (p.1 = k))

/-- Concrete universe of Python scalar values for the records handled by
`get_prop`: YAML scalars (numbers embedded as rationals, strings,
booleans, `None`). -/
inductive PyVal : Type where
  | num (q : ℚ)
  | str (s : String)
  | bool (b : Bool)
  | none_
deriving DecidableEq

/-- One record of the database: a mapping from property-name strings to
values, embedded as an association list over an arbitrary value type. -/
abbrev Record (V : Type) := List (String × V)

/-- One filtering criterion value, as dispatched by
`v(data[k]) if isinstance(v, abc.Callable) else data[k] == v` in
`filter_data`: either a plain value compared with `==`, or a unary
callable used as a predicate. -/
inductive Crit (V : Type) : Type where
  | lit (v : V)
  | pred (f : V → Bool)

/-- The `**crit` keyword arguments of `filter_data`: a Python dict from
property names to criterion values. -/
abbrev CritMap (V : Type) := List (String × Crit V)

/-- Test of a single criterion value against the record's value at the
key: `v(data[k])` for a callable criterion, `data[k] == v` otherwise. -/
def critTest {V : Type} [DecidableEq V] : Crit V → V → Bool
  | Crit.pred f, x => f x
  | Crit.lit v, x => decide (x = v)

/-- Test of one `(key, criterion)` item against a record, translating
`k in data and (v(data[k]) if ... else data[k] == v)` in `filter_data`:
the key must be present and the criterion test must pass on its
value. -/
def keyTest {V : Type} [DecidableEq V] (data : Record V) (kv : String × Crit V) : Bool :=
  match dictGet data kv.1 with
  | none => false
  | some x => critTest kv.2 x

/-- Test of a whole record against the criteria dict, translating
`all(k in data and (...) for k, v in crit.items())` in `filter_data`. -/
def recMatches {V : Type} [DecidableEq V] (crit : CritMap V) (data : Record V) : Bool :=
  crit.all fun kv => keyTest data kv

/-- The sequence scanned by `filter_data`:
`self.content if subset is None else subset`. -/
def scanned {V : Type} (content : List (Record V)) : Option (List (Record V)) → List (Record V)
  | none => content
  | some s => s

/-- Embedding of `ResDB.filter_data` with `keep_idx=True`: the
comprehension enumerates the scanned sequence and keeps the
`(idx, data)` pairs whose record passes all criteria. -/
def filter_idx {V : Type} [DecidableEq V] (content : List (Record V))
    (subset : Option (List (Record V))) (crit : CritMap V) : List (ℕ × Record V) :=
  ((scanned content subset).enum).filter fun p => recMatches crit p.2

/-- Embedding of `ResDB.filter_data` with `keep_idx=False` (the default):
the same comprehension, yielding the bare records instead of the
`(idx, data)` pairs. -/
def filter_data {V : Type} [DecidableEq V] (content : List (Record V))
    (subset : Option (List (Record V))) (crit : CritMap V) : List (Record V) :=
  (filter_idx content subset crit).map Prod.snd

/-- Errors raised by the query methods; one constructor per `raise` site
(comments quote the Python exception). -/
inductive PyErr : Type where
  /-- `KeyError` from `i[prop]` (unreachable in `get_prop`, where the
  presence criterion guarantees the key). -/
  | keyErr
  /-- `ValueError('No data point is found satisfying the criteria!')`
  in `get_data` — the spec's `NotFoundError`. -/
  | valueErrNoData
  /-- `ValueError('Multiple data points are found satisfying the
  criteria!')` in `get_data` — the spec's `AmbiguousError`. -/
  | valueErrMultiData
  /-- `ValueError('More than one value has been found for {prop}')` in
  `get_prop` when `tol == 0` — the spec's `DisagreementError`. -/
  | valueErrMoreThanOne
  /-- `ValueError('max() arg is an empty sequence')` from
  `max(prop_vals)` when no value was collected. -/
  | valueErrMaxEmpty
  /-- `ValueError('The range of {prop} exceeds tolerance')` in
  `get_prop`. -/
  | valueErrExceedsTol
  /-- `TypeError` from comparing or subtracting non-numeric values in
  `max(prop_vals) - min(prop_vals)`. -/
  | typeErrCompare
  /-- `TypeError` from `sum(range_)` where `range_` is a scalar
  number: `sum` (and `len`) of a non-iterable raises. -/
  | typeErrSumScalar
deriving DecidableEq

/-- Embedding of `ResDB.get_data`: filter with the criteria (default
`keep_idx`/`subset`), then require exactly one match.  The three match
arms are the `len(all_data) < 1` / `> 1` / `== 1` branches. -/
def get_data {V : Type} [DecidableEq V] (content : List (Record V)) (crit : CritMap V) :
    Except PyErr (Record V) :=
  match filter_data content none crit with
  | [] => Except.error PyErr.valueErrNoData
  | [x] => Except.ok x
  | _ :: _ :: _ => Except.error PyErr.valueErrMultiData

/-- Embedding of `[i[prop] for i in data_pnts]` in `get_prop`: collect
the value of the property from every record, raising `KeyError` on an
absent key (unreachable there). -/
def getVals (rs : List (Record PyVal)) (k : String) : Except PyErr (List PyVal) :=
  rs.mapM fun r =>
    match dictGet r k with
    | some v => Except.ok v
    | none => Except.error PyErr.keyErr

/-- View of a list of values as numbers, for `max`/`min`/subtraction in
`get_prop`; `none` when some value is not numeric. -/
def asNums : List PyVal → Option (List ℚ)
  | [] => some []
  | PyVal.num q :: t => (asNums t).map fun l => q :: l
  | _ => none

/-- Embedding of `range_ = max(prop_vals) - min(prop_vals)` in
`get_prop`: `max` of an empty sequence raises `ValueError`; comparison
or subtraction of non-numeric values raises `TypeError` (we surface the
`TypeError` uniformly at this step); on numbers it is the spread. -/
def numRange : List PyVal → Except PyErr ℚ
  | [] => Except.error PyErr.valueErrMaxEmpty
  | v :: vs =>
    match asNums (v :: vs) with
    | some (q :: qs) => Except.ok (qs.foldl max q - qs.foldl min q)
    | _ => Except.error PyErr.typeErrCompare

/-- Tail of `ResDB.get_prop` after the filtering: the
`len(prop_vals) == 1` branch returns the single value; otherwise
`tol == 0` raises; otherwise the spread is computed and compared with
the tolerance; within tolerance the code executes
`sum(range_) / len(range_)` on the scalar `range_`, which raises
`TypeError`. -/
def get_prop_vals (propVals : List PyVal) (tol : ℚ) : Except PyErr PyVal :=
  match propVals with
  | [v] => Except.ok v
  | _ =>
    if tol = 0 then Except.error PyErr.valueErrMoreThanOne
    else
      match numRange propVals with
      | Except.error e => Except.error e
      | Except.ok range =>
        if range > tol then Except.error PyErr.valueErrExceedsTol
        else Except.error PyErr.typeErrSumScalar

/-- Embedding of `ResDB.get_prop`: add the implicit presence criterion
by the dict assignment `kwargs[prop] = lambda _: True`, filter, collect
the property values, then aggregate via `get_prop_vals`. -/
def get_prop (content : List (Record PyVal)) (prop : String) (tol : ℚ)
    (kwargs : CritMap PyVal) : Except PyErr PyVal :=
  match getVals (filter_data content none (dictSet kwargs prop (Crit.pred fun _ => true))) prop with
  | Except.error e => Except.error e
  | Except.ok propVals => get_prop_vals propVals tol

/-- Embedding of `ResDB.remove_data`: collect the indices of the
matching records from `filter_data(keep_idx=True, **crit)`, rebuild the
content keeping the records whose index is not among them
(`i not in idxes`), and return the count removed together with the new
content. -/
def remove_data {V : Type} [DecidableEq V] (content : List (Record V)) (crit : CritMap V) :
    ℕ × List (Record V) :=
  let idxes := (filter_idx content none crit).map Prod.fst
  (idxes.length,
    (content.enum.filter fun p => !(decide (p.1 ∈ idxes))).map Prod.snd)

/-- Embedding of `ResDB.append_data`: `self.content.append(data)`. -/
def append_data {V : Type} (content : List (Record V)) (data : Record V) : List (Record V) :=
  content ++ [data]

/-- The store in its normal operating state: the bound file name and the
`content` attribute holding the sequence of records. -/
structure DB (V : Type) : Type where
  file_name : String
  content : List (Record V)
deriving DecidableEq

/-- Method-level view of `filter_data` with `keep_idx=True` as a state
transformer on the store: the comprehension only reads `self.content`
and assigns nothing, so the resulting store is the input store. -/
def filter_idxM {V : Type} [DecidableEq V] (subset : Option (List (Record V)))
    (crit : CritMap V) (db : DB V) : List (ℕ × Record V) × DB V :=
  (filter_idx db.content subset crit, db)

/-- Method-level view of `filter_data` with `keep_idx=False` as a state
transformer on the store. -/
def filter_dataM {V : Type} [DecidableEq V] (subset : Option (List (Record V)))
    (crit : CritMap V) (db : DB V) : List (Record V) × DB V :=
  (filter_data db.content subset crit, db)

/-- Method-level view of `remove_data` as a state transformer on the
store: it reassigns `self.content` and returns the removed count. -/
def remove_dataM {V : Type} [DecidableEq V] (crit : CritMap V) (db : DB V) : ℕ × DB V :=
  ((remove_data db.content crit).1, ⟨db.file_name, (remove_data db.content crit).2⟩)

/-!
Embedding of the constructor `ResDB.__init__` (identical in
`DataDB.__init__`).  The interaction with the file system is embedded as
an explicit description of what `open` + `yaml.load` produced.
-/

/-- Shape of the value decoded from the backing YAML file, as far as the
constructor's `isinstance` checks can observe it. -/
inductive Decoded (V : Type) : Type where
  /-- `load` returned `None` (empty or whitespace-only file). -/
  | null
  /-- A YAML list of records (a Python `list`, which is a
  `collections.abc.Sequence`). -/
  | seq (rs : List (Record V))
  /-- A string scalar (a Python `str` — also a
  `collections.abc.Sequence`). -/
  | str (s : String)
  /-- A mapping at top level (a Python `dict`, not a sequence). -/
  | map (m : Record V)
  /-- A numeric scalar (not a sequence). -/
  | num (q : ℚ)
  /-- A boolean scalar (not a sequence). -/
  | bool (b : Bool)
deriving DecidableEq

/-- Python `isinstance(input_content, collections.abc.Sequence)`: true
for lists and strings, false for mappings and for numeric or boolean
scalars. -/
def Decoded.isSeq {V : Type} : Decoded V → Bool
  | Decoded.seq _ => true
  | Decoded.str _ => true
  | _ => false

/-- Outcome of `open(file_name, 'r')` + `yaml.load` on the backing
file. -/
inductive LoadInput (V : Type) : Type where
  /-- `open` raised `IOError` (the file does not exist). -/
  | missing
  /-- `load` raised `YAMLError` (malformed serialized data). -/
  | malformed
  /-- `load` returned the given decoded value. -/
  | decoded (d : Decoded V)
deriving DecidableEq

/-- Errors propagating out of the constructor. -/
inductive InitErr : Type where
  /-- The `TypeError` raised for non-sequence content — the spec's
  `ConfigurationError`; carries the Python message. -/
  | typeErr (msg : String)
  /-- The re-raised `YAMLError` — the spec's `ParseError`. -/
  | yamlErr
deriving DecidableEq

/-- Attribute state of a freshly constructed store: the bound file name
and the `content` attribute, `none` when the constructor finished
without ever assigning it. -/
structure InitState (V : Type) : Type where
  file_name : String
  content : Option (List (Record V))
deriving DecidableEq

/-- Embedding of `ResDB.__init__`: a missing file or a file decoding to
`None` is caught by `except IOError` and yields `content = []`; a
decoded non-sequence raises the `TypeError`; a `YAMLError` is re-raised;
and when the decoded value is a sequence the `try` block falls through
without ever assigning `self.content` (the loaded value is discarded),
leaving the attribute unset. -/
def db_init {V : Type} (file_name : String) (inp : LoadInput V) :
    Except InitErr (InitState V) :=
  match inp with
  | LoadInput.missing => Except.ok ⟨file_name, some []⟩
  | LoadInput.malformed => Except.error InitErr.yamlErr
  | LoadInput.decoded d =>
    match d with
    | Decoded.null => Except.ok ⟨file_name, some []⟩
    | d =>
      if d.isSeq then Except.ok ⟨file_name, none⟩
      else Except.error (InitErr.typeErr
        ("Invalid content in YAML file " ++ file_name ++ "!\nA list of data points are needed!"))

/-!
Embedding of `ResDB.save`.  The file system is embedded as an
association list from paths to file contents, and the YAML dumper as an
arbitrary encoding function (the spec treats the codec as an external
collaborator).
-/

/-- The file system visible to `save`: a finite map from paths to file
contents. -/
abbrev FS := List (String × String)

/-- Errors propagating out of `save`. -/
inductive SaveErr : Type where
  /-- `shutil.copyfile` raised because the backup source (the bound
  location) does not exist. -/
  | ioErr
deriving DecidableEq

/-- Embedding of `ResDB.save`: when `bak_suffix` is truthy (a nonempty
string), first `shutil.copyfile(self.file_name, self.file_name +
bak_suffix)` — raising `IOError` when the bound location does not exist,
with no write performed; then the content is dumped to `file_name`,
defaulting to the bound location.  The result pairs the file system
after the performed effects with the outcome. -/
def db_save {V : Type} (dump : List (Record V) → String) (db : DB V) (fs : FS)
    (file_name : Option String) (bak_suffix : String) : FS × Except SaveErr Unit :=
  if bak_suffix = "" then
    (dictSet fs (file_name.getD db.file_name) (dump db.content), Except.ok ())
  else
    match dictGet fs db.file_name with
    | none => (fs, Except.error SaveErr.ioErr)
    | some old =>
      (dictSet (dictSet fs (db.file_name ++ bak_suffix) old)
        (file_name.getD db.file_name) (dump db.content), Except.ok ())

/-!
Helper lemmas about the enumerate-filter pattern shared by
`filter_data` and `remove_data`.
-/

/-- Filtering an enumerated list by a predicate on the element and
dropping the indices is filtering the list itself. -/
theorem enumFrom_filter_snd {α : Type} (m : α → Bool) :
    ∀ (n : ℕ) (l : List α),
      (((l.enumFrom n).filter fun p => m p.2).map Prod.snd) = l.filter m
  | _, [] => rfl
  | n, a :: t => by
    by_cases h : m a <;>
      simp [List.enumFrom_cons, List.filter_cons, h, enumFrom_filter_snd m (n + 1) t]

/-- Every index selected from an enumeration starting at `n` is at least
`n`. -/
theorem mem_enumFrom_filter_fst_ge {α : Type} (m : α → Bool) :
    ∀ (n : ℕ) (l : List α) (j : ℕ),
      j ∈ (((l.enumFrom n).filter fun p => m p.2).map Prod.fst) → n ≤ j
  | _, [], _ => by simp
  | n, a :: t, j => by
    by_cases h : m a <;>
      simp only [List.enumFrom_cons, List.filter_cons, h, if_pos, if_neg, List.map_cons,
        List.mem_cons, Bool.false_eq_true, ite_false, ite_true] <;>
      intro hj
    · rcases hj with hj | hj
      · omega
      · have := mem_enumFrom_filter_fst_ge m (n + 1) t j hj
        omega
    · have := mem_enumFrom_filter_fst_ge m (n + 1) t j hj
      omega

/-- Membership of an index among the selected indices of an enumeration
is equivalent to the predicate holding at the element carried by that
index. -/
theorem mem_idxes_iff {α : Type} (m : α → Bool) :
    ∀ (n : ℕ) (l : List α) (i : ℕ) (a : α), (i, a) ∈ l.enumFrom n →
      ((i ∈ (((l.enumFrom n).filter fun p => m p.2).map Prod.fst)) ↔ m a = true)
  | _, [], _, _ => by simp
  | n, b :: t, i, a => by
    intro hmem
    rw [List.enumFrom_cons, List.mem_cons] at hmem
    rcases hmem with hhd | htl
    · have hi : n = i := (congrArg Prod.fst hhd).symm
      have hb : b = a := (congrArg Prod.snd hhd).symm
      subst hi; subst hb
      by_cases h : m b
      · simp [List.enumFrom_cons, List.filter_cons, h]
      · simp only [List.enumFrom_cons, List.filter_cons, h, Bool.false_eq_true, ite_false]
        constructor
        · intro hin
          have := mem_enumFrom_filter_fst_ge m (n + 1) t n hin
          omega
        · intro hc
          exact absurd hc (by simp [h])
    · have hge : n + 1 ≤ i := (List.mk_mem_enumFrom_iff_le_and_getElem?_sub.mp htl).1
      have ih := mem_idxes_iff m (n + 1) t i a htl
      by_cases h : m b
      · simp only [List.enumFrom_cons, List.filter_cons, h, ite_true, List.map_cons,
          List.mem_cons]
        rw [← ih]
        constructor
        · rintro (hc | hc)
          · omega
          · exact hc
        · intro hc; exact Or.inr hc
      · simpa only [List.enumFrom_cons, List.filter_cons, h, Bool.false_eq_true, ite_false]
          using ih

/-- Count form of `enumFrom_filter_snd`: the number of selected indices
is the number of elements passing the predicate. -/
theorem length_filter_enumFrom {α : Type} (m : α → Bool) (n : ℕ) (l : List α) :
    ((((l.enumFrom n).filter fun p => m p.2).map Prod.fst).length) = (l.filter m).length := by
  rw [List.length_map, ← List.length_map (((l.enumFrom n).filter fun p => m p.2)) Prod.snd,
    enumFrom_filter_snd]

/-!
Claim theorems.
-/

/-- C1: for every store content, criteria map and optional subset,
`filter_data` returns, in the order of the scanned sequence, exactly the
records matching every criterion — where a record matches iff every
criterion key is present in it and the criterion value, as a predicate
or by equality, accepts the record's value — and an empty criteria map
matches every record, so filtering with no criteria returns the whole
scanned sequence in original order. -/
theorem filter_data_spec {V : Type} [DecidableEq V] (content : List (Record V))
    (subset : Option (List (Record V))) (crit : CritMap V) :
    filter_data content subset crit = ((scanned content subset).filter fun r => recMatches crit r)
    ∧ (∀ r : Record V, recMatches crit r = true ↔
        ∀ p ∈ crit, ∃ v, dictGet r p.1 = some v ∧ critTest p.2 v = true)
    ∧ filter_data content subset ([] : CritMap V) = scanned content subset := by
  refine ⟨?_, ?_, ?_⟩
  · show ((((scanned content subset).enumFrom 0).filter fun p => recMatches crit p.2).map
      Prod.snd) = _
    exact enumFrom_filter_snd _ 0 _
  · intro r
    rw [recMatches, List.all_eq_true]
    constructor
    · intro h p hp
      have hk := h p hp
      cases hg : dictGet r p.1 with
      | none =>
        simp only [keyTest, hg] at hk
        exact Bool.noConfusion hk
      | some v => exact ⟨v, rfl, by simpa only [keyTest, hg] using hk⟩
    · intro h p hp
      rcases h p hp with ⟨v, hg, ht⟩
      simp only [keyTest, hg]
      exact ht
  · show ((((scanned content subset).enumFrom 0).filter fun p => recMatches [] p.2).map
      Prod.snd) = _
    rw [enumFrom_filter_snd]
    have : (recMatches ([] : CritMap V)) = fun _ : Record V => true := rfl
    rw [this, List.filter_true]

/-- C4: for every store content and criteria, `get_data` fails with the
no-data `ValueError` (the spec's `NotFoundError`) when zero records
match, fails with the multiple-data `ValueError` (the spec's
`AmbiguousError`) when more than one record matches, and returns the
single matching record itself, unwrapped, when exactly one matches. -/
theorem get_data_spec {V : Type} [DecidableEq V] (content : List (Record V))
    (crit : CritMap V) :
    ((filter_data content none crit).length = 0 →
      get_data content crit = Except.error PyErr.valueErrNoData)
    ∧ ((filter_data content none crit).length > 1 →
      get_data content crit = Except.error PyErr.valueErrMultiData)
    ∧ (∀ r : Record V, filter_data content none crit = [r] →
      get_data content crit = Except.ok r) := by
  refine ⟨?_, ?_, ?_⟩
  · intro h
    rw [List.length_eq_zero] at h
    rw [get_data, h]
  · intro h
    rw [get_data]
    rcases hf : filter_data content none crit with _ | ⟨a, _ | ⟨b, t⟩⟩
    · rw [hf] at h; simp at h
    · rw [hf] at h; simp at h
    · rfl
  · intro r h
    rw [get_data, h]

/-- Closed witness for C4: on the two-record store
`[{"x": 1}, {"x": 2}]` with criterion `x = 1`, `get_data` returns the
record `{"x": 1}` itself. -/
theorem get_data_spec_witness :
    get_data [[("x", PyVal.num 1)], [("x", PyVal.num 2)]] [("x", Crit.lit (PyVal.num 1))] =
      Except.ok [("x", PyVal.num 1)] :=
  (get_data_spec [[("x", PyVal.num 1)], [("x", PyVal.num 2)]]
    [("x", Crit.lit (PyVal.num 1))]).2.2 [("x", PyVal.num 1)] rfl

/-- C7: for every store content and criteria, `remove_data` removes
exactly the records matching the criteria, keeps the remaining records
in their original relative order, and returns the number removed; in
particular removing `x = 1` from `[{"x":1},{"x":2},{"x":1}]` removes
two records, leaves `[{"x":2}]` and returns `2`. -/
theorem remove_data_spec {V : Type} [DecidableEq V] (content : List (Record V))
    (crit : CritMap V) :
    remove_data content crit =
      (((content.filter fun r => recMatches crit r).length),
        (content.filter fun r => !(recMatches crit r)))
    ∧ remove_data [[("x", PyVal.num 1)], [("x", PyVal.num 2)], [("x", PyVal.num 1)]]
        [("x", Crit.lit (PyVal.num 1))] = (2, [[("x", PyVal.num 2)]]) := by
  constructor
  · rw [remove_data]
    have hcount :
        (((filter_idx content none crit).map Prod.fst).length) =
          ((content.filter fun r => recMatches crit r).length) :=
      length_filter_enumFrom (fun r => recMatches crit r) 0 content
    have hcongr :
        (content.enum.filter fun p =>
            !(decide (p.1 ∈ (filter_idx content none crit).map Prod.fst))) =
          (content.enum.filter fun p => !(recMatches crit p.2)) := by
      apply List.filter_congr
      intro p hp
      have hiff :
          (p.1 ∈ (((content.enumFrom 0).filter fun q =>
            recMatches crit q.2).map Prod.fst)) ↔ recMatches crit p.2 = true :=
        mem_idxes_iff (fun r => recMatches crit r) 0 content p.1 p.2 hp
      have hdec : decide (p.1 ∈ (filter_idx content none crit).map Prod.fst) =
          recMatches crit p.2 := by
        cases hm : recMatches crit p.2 with
        | true =>
          simp only [decide_eq_true_eq]
          exact hiff.mpr hm
        | false =>
          simp only [decide_eq_false_iff_not]
          intro hc
          have hc' := hiff.mp hc
          rw [hm] at hc'
          exact Bool.false_ne_true hc'
      rw [hdec]
    rw [hcongr]
    have hrest := enumFrom_filter_snd (fun r => !(recMatches crit r)) 0 content
    exact Prod.ext hcount hrest
  · decide

/-- C9: `filter_data` (in both its keep-index forms) is a pure function
of the store: as a state transformer it leaves the store unchanged, and
calling it again on the resulting store returns the same result. -/
theorem filter_data_pure {V : Type} [DecidableEq V] (db : DB V)
    (subset : Option (List (Record V))) (crit : CritMap V) :
    (filter_idxM subset crit db).2 = db
    ∧ (filter_dataM subset crit db).2 = db
    ∧ (filter_idxM subset crit (filter_idxM subset crit db).2).1 =
        (filter_idxM subset crit db).1
    ∧ (filter_dataM subset crit (filter_dataM subset crit db).2).1 =
        (filter_dataM subset crit db).1 :=
  ⟨rfl, rfl, rfl, rfl⟩

/-!
Helper lemmas about the dict operations, used for the `save` backup
property and for the criterion-override property of `get_prop`.
-/

/-- Lookup after assignment at the same key yields the assigned
value. -/
theorem dictGet_dictSet_self {α : Type} (d : List (String × α)) (k : String) (v : α) :
    dictGet (dictSet d k v) k = some v := by
  induction d with
  | nil => simp [dictGet, dictSet]
  | cons p t ih =>
    by_cases h : p.1 = k
    · simp [dictSet, dictGet, h]
    · simp only [dictSet, dictGet, h, ite_false]
      exact ih

/-- Lookup after assignment at a different key is unchanged. -/
theorem dictGet_dictSet_ne {α : Type} (d : List (String × α)) (k k' : String) (v : α)
    (h : k' ≠ k) : dictGet (dictSet d k v) k' = dictGet d k' := by
  induction d with
  | nil =>
    show (if k = k' then some v else dictGet ([] : List (String × α)) k') = none
    rw [if_neg fun hc => h hc.symm]
    rfl
  | cons p t ih =>
    by_cases hp : p.1 = k
    · subst hp
      simp only [dictSet, ite_true, dictGet]
      rw [if_neg (fun hc => h hc.symm), if_neg (fun hc => h hc.symm)]
    · simp only [dictSet, hp, ite_false, dictGet]
      by_cases hq : p.1 = k'
      · rw [if_pos hq, if_pos hq]
      · rw [if_neg hq, if_neg hq]
        exact ih

/-- Two successive assignments at the same key behave as the second
alone. -/
theorem dictSet_dictSet {α : Type} (d : List (String × α)) (k : String) (v w : α) :
    dictSet (dictSet d k v) k w = dictSet d k w := by
  induction d with
  | nil => simp [dictSet]
  | cons p t ih =>
    by_cases h : p.1 = k
    · simp [dictSet, h]
    · simp [dictSet, h, ih]

/-- Erasure of a key absent from a dict is the identity. -/
theorem dictErase_of_not_mem {α : Type} (d : List (String × α)) (k : String)
    (h : k ∉ d.map Prod.fst) : dictErase d k = d := by
  induction d with
  | nil => rfl
  | cons p t ih =>
    rw [List.map_cons, List.mem_cons] at h
    push_neg at h
    have h1 : ¬ (p.1 = k) := fun hc => h.1 hc.symm
    have h2 : (!decide (p.1 = k)) = true := by simp [h1]
    rw [dictErase, List.filter_cons, h2, if_pos rfl]
    exact congrArg (List.cons p) (ih h.2)

/-- Erasure removes the key from the key list. -/
theorem not_mem_dictErase {α : Type} (d : List (String × α)) (k : String) :
    k ∉ (dictErase d k).map Prod.fst := by
  intro hc
  rcases List.mem_map.mp hc with ⟨p, hp, hk⟩
  rcases List.mem_filter.mp hp with ⟨_, hcond⟩
  rw [hk] at hcond
  simp at hcond

/-- The key list of an erasure is a sublist of the original key list. -/
theorem dictErase_keys_sublist {α : Type} (d : List (String × α)) (k : String) :
    ((dictErase d k).map Prod.fst).Sublist (d.map Prod.fst) :=
  (List.filter_sublist d).map Prod.fst

/-- With duplicate-free keys (the invariant of a Python dict), matching
against the criteria after the assignment `d[k] = w` is matching the
single criterion `(k, w)` together with the criteria without the key
`k`. -/
theorem recMatches_dictSet {V : Type} [DecidableEq V] (d : CritMap V) (k : String)
    (w : Crit V) (hnd : (d.map Prod.fst).Nodup) (r : Record V) :
    recMatches (dictSet d k w) r = (keyTest r (k, w) && recMatches (dictErase d k) r) := by
  induction d with
  | nil => simp [dictSet, dictErase, recMatches]
  | cons p t ih =>
    obtain ⟨k', v'⟩ := p
    rw [List.map_cons, List.nodup_cons] at hnd
    by_cases h : k' = k
    · subst h
      have ht : dictErase t k' = t := dictErase_of_not_mem t k' hnd.1
      rw [dictErase] at ht
      simp [dictSet, dictErase, List.filter_cons, recMatches, ht]
    · have hcons : dictErase ((k', v') :: t) k = (k', v') :: dictErase t k := by
        rw [dictErase, List.filter_cons]
        simp [h]
        rfl
      simp only [dictSet, h, ite_false, hcons]
      simp only [recMatches, List.all_cons] at ih ⊢
      rw [ih hnd.2]
      cases keyTest r (k', v') <;> cases keyTest r (k, w) <;> simp

/-- C10: for every store content, property name, tolerance and
duplicate-free criteria dict, a caller-supplied criterion on the
requested property is silently overwritten by the implicit always-true
presence test inside `get_prop`, so the result equals that of the same
call with no criterion on that property at all. -/
theorem get_prop_presence_override (content : List (Record PyVal)) (prop : String)
    (tol : ℚ) (kwargs : CritMap PyVal) (c : Crit PyVal)
    (hnd : (kwargs.map Prod.fst).Nodup) :
    get_prop content prop tol (dictSet kwargs prop c) =
      get_prop content prop tol (dictErase kwargs prop) := by
  have hmatch : ∀ r : Record PyVal,
      recMatches (dictSet (dictSet kwargs prop c) prop (Crit.pred fun _ => true)) r =
        recMatches (dictSet (dictErase kwargs prop) prop (Crit.pred fun _ => true)) r := by
    intro r
    rw [dictSet_dictSet]
    rw [recMatches_dictSet kwargs prop _ hnd r]
    rw [recMatches_dictSet (dictErase kwargs prop) prop _
      ((dictErase_keys_sublist kwargs prop).nodup hnd) r]
    rw [dictErase_of_not_mem (dictErase kwargs prop) prop (not_mem_dictErase kwargs prop)]
  have hfilter :
      filter_data content none (dictSet (dictSet kwargs prop c) prop (Crit.pred fun _ => true)) =
        filter_data content none
          (dictSet (dictErase kwargs prop) prop (Crit.pred fun _ => true)) := by
    rw [filter_data, filter_data, filter_idx, filter_idx]
    rw [List.filter_congr fun p _ => hmatch p.2]
  rw [get_prop, get_prop, hfilter]

/-- Closed witness for C10: on the store `[{"e": 1, "k": 2}]` with
criteria `{k: 2}`, adding a criterion `e = 5` (overwritten by the
implicit presence test) gives the same `get_prop` result as passing no
criterion on `e`. -/
theorem get_prop_presence_override_witness :
    get_prop [[("e", PyVal.num 1), ("k", PyVal.num 2)]] "e" 0
        (dictSet [("k", Crit.lit (PyVal.num 2))] "e" (Crit.lit (PyVal.num 5))) =
      get_prop [[("e", PyVal.num 1), ("k", PyVal.num 2)]] "e" 0
        (dictErase [("k", Crit.lit (PyVal.num 2))] "e") :=
  get_prop_presence_override [[("e", PyVal.num 1), ("k", PyVal.num 2)]] "e" 0
    [("k", Crit.lit (PyVal.num 2))] (Crit.lit (PyVal.num 5)) (by simp)

/-- C5 counterexample: a backing file that decodes to the string scalar
`"hello"` — a value that is not a sequence of records — does not make
construction fail: a Python `str` is a `collections.abc.Sequence`, so
the constructor returns normally (with the content attribute left
unset) instead of raising the `ConfigurationError`. -/
theorem init_str_scalar_cex :
    db_init "f" (LoadInput.decoded (Decoded.str "hello") : LoadInput PyVal) =
      Except.ok ⟨"f", none⟩ := rfl

/-- C5 (amended): for every backing file that exists and decodes
successfully to a value that is not a Python sequence — a mapping, a
numeric scalar or a boolean scalar; a decoded string counts as a
sequence and is not rejected — construction fails with the `TypeError`
(the spec's `ConfigurationError`) naming the offending file and stating
that a list of data points is needed. -/
theorem init_non_sequence_spec {V : Type} (file : String) (m : Record V) (q : ℚ) (b : Bool) :
    db_init file (LoadInput.decoded (Decoded.map m)) =
      Except.error (InitErr.typeErr
        ("Invalid content in YAML file " ++ file ++ "!\nA list of data points are needed!"))
    ∧ db_init file (LoadInput.decoded (Decoded.num q : Decoded V)) =
      Except.error (InitErr.typeErr
        ("Invalid content in YAML file " ++ file ++ "!\nA list of data points are needed!"))
    ∧ db_init file (LoadInput.decoded (Decoded.bool b : Decoded V)) =
      Except.error (InitErr.typeErr
        ("Invalid content in YAML file " ++ file ++ "!\nA list of data points are needed!")) :=
  ⟨rfl, rfl, rfl⟩

/-- C6: constructing a store bound to a nonexistent path, or to a file
that decodes to `None`, succeeds with the content attribute set to the
empty sequence; but a file that decodes to the empty sequence `[]`
exposes the constructor bug: construction returns normally, yet the
loaded value is discarded and the content attribute is never assigned
(`none` in the embedding), so the records do not equal the empty
sequence. -/
theorem init_content_eval :
    db_init "f" (LoadInput.missing : LoadInput PyVal) = Except.ok ⟨"f", some []⟩
    ∧ db_init "f" (LoadInput.decoded (Decoded.null : Decoded PyVal)) =
        Except.ok ⟨"f", some []⟩
    ∧ db_init "f" (LoadInput.decoded (Decoded.seq ([] : List (Record PyVal)))) =
        Except.ok ⟨"f", none⟩ :=
  ⟨rfl, rfl, rfl⟩

/-- C2: on the records `[{"e": 1.0}, {"e": 1.05}]` with tolerance
`0.1`, the collected values disagree within tolerance, and `get_prop`
then executes `sum(range_) / len(range_)` on the scalar spread
`range_ = 0.05`, raising `TypeError` instead of returning a value
between `1.0` and `1.05`. -/
theorem get_prop_sum_scalar_eval :
    get_prop [[("e", PyVal.num 1)], [("e", PyVal.num (21/20))]] "e" (1/10) [] =
      Except.error PyErr.typeErrSumScalar := by
  norm_num [get_prop, getVals, filter_data, filter_idx, scanned, List.enum, recMatches,
    keyTest, critTest, dictGet, dictSet, numRange, asNums, get_prop_vals, List.mapM,
    List.mapM.loop, List.filter, List.enumFrom, bind, Except.bind, pure, Except.pure,
    List.foldl, max_def, min_def]

/-- C3: on a store where no record matches (here the empty store),
`get_prop` never fails with the no-data `ValueError` (the spec's
`NotFoundError`): with tolerance `0` it raises the more-than-one-value
`ValueError` (whose message contradicts the zero values actually
found), and with any nonzero tolerance it raises the `ValueError` of
`max()` applied to an empty sequence. -/
theorem get_prop_zero_match_eval :
    get_prop ([] : List (Record PyVal)) "e" 0 [] = Except.error PyErr.valueErrMoreThanOne
    ∧ get_prop ([] : List (Record PyVal)) "e" 1 [] = Except.error PyErr.valueErrMaxEmpty
    ∧ ∀ tol : ℚ, get_prop ([] : List (Record PyVal)) "e" tol [] ≠
        Except.error PyErr.valueErrNoData := by
  refine ⟨rfl, rfl, ?_⟩
  intro tol
  show get_prop_vals [] tol ≠ Except.error PyErr.valueErrNoData
  by_cases h : tol = 0 <;> simp [get_prop_vals, numRange, h]

/-- C8 counterexample: with backup enabled, calling `save` with the
output path equal to the backup path `location + suffix` first copies
the pre-save content `"old"` to the backup file and then overwrites
that same file with the newly saved content, so after `save` the backup
file's content is the newly saved content, not the pre-save content. -/
theorem save_backup_clobber_cex :
    dictGet (db_save (fun _ : List (Record PyVal) => "new") ⟨"a", []⟩ [("a", "old")]
        (some "a.bak") ".bak").1 "a.bak" = some "new"
    ∧ dictGet (db_save (fun _ : List (Record PyVal) => "new") ⟨"a", []⟩ [("a", "old")]
        (some "a.bak") ".bak").1 "a.bak" ≠ some "old" :=
  ⟨rfl, by decide⟩

/-- C8 (amended): for every store with backup enabled (a truthy, i.e.
nonempty, suffix) and every output path distinct from the backup path
`location + suffix` — including every output path differing from the
bound location — `save` fails with `IOError`, writing nothing, when the
bound location does not exist on disk; and otherwise, after `save`, the
backup file at `location + suffix` holds exactly the pre-save on-disk
content of the bound location, not the newly saved content. -/
theorem save_backup_spec {V : Type} (dump : List (Record V) → String) (db : DB V)
    (fs : FS) (out : Option String) (suffix : String) (old : String)
    (hsuf : suffix ≠ "") (hout : out.getD db.file_name ≠ db.file_name ++ suffix) :
    (dictGet fs db.file_name = none →
      db_save dump db fs out suffix = (fs, Except.error SaveErr.ioErr))
    ∧ (dictGet fs db.file_name = some old →
      dictGet (db_save dump db fs out suffix).1 (db.file_name ++ suffix) = some old) := by
  constructor
  · intro h
    rw [db_save, if_neg hsuf, h]
  · intro h
    rw [db_save, if_neg hsuf, h]
    show dictGet (dictSet (dictSet fs (db.file_name ++ suffix) old)
      (out.getD db.file_name) (dump db.content)) (db.file_name ++ suffix) = some old
    rw [dictGet_dictSet_ne _ _ _ _ (fun hc => hout hc.symm)]
    exact dictGet_dictSet_self _ _ _

/-- Closed witness for C8: saving the store bound to `"a"` (with
pre-save on-disk content `"old"`) to its default output path with
suffix `".bak"` leaves `"old"` in the backup file `"a.bak"`. -/
theorem save_backup_spec_witness :
    dictGet (db_save (fun _ : List (Record PyVal) => "new") ⟨"a", []⟩ [("a", "old")]
        none ".bak").1 ("a" ++ ".bak") = some "old" :=
  (save_backup_spec (fun _ : List (Record PyVal) => "new") ⟨"a", []⟩ [("a", "old")]
    none ".bak" "old" (by decide) (by decide)).2 rfl

end KineticToolkit
